import Mathlib

/-!
Verification of the progress-tracking engine (`rich/progress.py`).

Shallow embedding: Python floats become rationals (`ℚ`), the monotonic
clock becomes an explicit `now : ℚ` argument, the sample deque becomes a
`List` whose head is the front of the deque, the insertion-ordered task
dictionary becomes an association list, and fallible operations (those
that can raise `KeyError` / `ZeroDivisionError`) return `Except Unit`.
-/

namespace Rich

/-- Python `int(q)` on a float: truncation toward zero. -/
def pyInt (q : ℚ) : ℤ :=
  if 0 ≤ q then ⌊q⌋ else ⌈q⌉

/-- Python `round(q)` on a float: round half to even (banker's rounding). -/
def pyRound (q : ℚ) : ℤ :=
  let f : ℤ := ⌊q⌋
  let r : ℚ := q - f
  if r < 1/2 then f
  else if 1/2 < r then f + 1
  else if f % 2 = 0 then f else f + 1

/-- `_ProgressSample`: sample of progress for a given time
(a `(timestamp, completed-delta)` pair). -/
structure ProgressSample where
  timestamp : ℚ
  completed : ℚ
deriving Repr, DecidableEq

/-- `Task`: stores information regarding a progress task.
`samples` embeds the `_progress` deque; list head = deque front. -/
structure Task where
  id : ℕ
  name : String
  total : ℚ
  completed : ℚ
  visible : Bool := true
  fields : List (String × String) := []
  start_time : Option ℚ := none
  stop_time : Option ℚ := none
  samples : List ProgressSample := []
deriving Repr, DecidableEq

/-- `Task.remaining`: the number of steps remaining (`total - completed`). -/
def Task.remaining (t : Task) : ℚ :=
  t.total - t.completed

/-- `Task.finished`: `self.completed >= self.total`. -/
def Task.finished (t : Task) : Bool :=
  decide (t.completed ≥ t.total)

/-- `Task.percentage`: `0.0` when `total` is falsy, otherwise
`completed / total * 100` clamped by `min(100, max(0.0, ·))`. -/
def Task.percentage (t : Task) : ℚ :=
  if t.total = 0 then 0
  else
    let c : ℚ := t.completed / t.total * 100
    min 100 (max 0 c)

/-- `Task.speed`: `0.0` when `start_time is None`; `None` when the sample
list is empty; `None` when the first-to-last time span is zero; otherwise
the sum of deltas of all samples except the first, divided by the span. -/
def Task.speed (t : Task) : Option ℚ :=
  match t.start_time with
  | none => some 0
  | some _ =>
    match t.samples with
    | [] => none
    | first :: rest =>
      let last := rest.getLastD first
      let total_time := last.timestamp - first.timestamp
      if total_time = 0 then none
      else
        let total_completed := (rest.map ProgressSample.completed).sum
        some (total_completed / total_time)

/-- `Task.time_remaining`: `0.0` when finished; `None` when `speed` is
`None`; otherwise `round(remaining / int(speed))`, which raises
`ZeroDivisionError` (modelled as `Except.error ()`) when `int(speed) = 0`. -/
def Task.time_remaining (t : Task) : Except Unit (Option ℚ) :=
  if t.finished then .ok (some 0)
  else
    match t.speed with
    | none => .ok none
    | some s =>
      let d := pyInt s
      if d = 0 then .error ()
      else .ok (some ((pyRound (t.remaining / (d : ℚ)) : ℤ) : ℚ))

/-- Python `dict` assignment `d[k] = v` on an insertion-ordered association
list: overwrite in place if the key exists, else append at the end. -/
def dictSet {α : Type} [DecidableEq α] {β : Type}
    (d : List (α × β)) (k : α) (v : β) : List (α × β) :=
  if d.any (fun p => p.1 = k) then
    d.map (fun p => if p.1 = k then (k, v) else p)
  else d ++ [(k, v)]

/-- Python `d.update(fields)`: assign every key/value pair in order. -/
def dictUpdate {α : Type} [DecidableEq α] {β : Type}
    (d : List (α × β)) : List (α × β) → List (α × β)
  | [] => d
  | (k, v) :: rest => dictUpdate (dictSet d k v) rest

/-- The `while _progress and _progress[0].timestamp < old_sample_time:
_progress.popleft()` loop: drop samples from the front while they are
older than the cutoff. -/
def evictOld (old_sample_time : ℚ) : List ProgressSample → List ProgressSample
  | [] => []
  | s :: rest =>
    if s.timestamp < old_sample_time then evictOld old_sample_time rest
    else s :: rest

/-- Body of `Progress.update` acting on a single task: apply the `total`
override, then `advance` (additive), then `completed` (absolute), then the
`visible` flag (source sets it to `True` whenever the argument is not
`None`), merge `fields`, evict old samples and append the one sample
`(now, completed_after - completed_start)`. -/
def Task.update (t : Task) (now : ℚ) (total? completed? advance? : Option ℚ)
    (visible? : Option Bool) (flds : List (String × String))
    (speed_estimate_period : ℚ) : Task :=
  let completed_start := t.completed
  let t1 := match total? with
    | some tot => { t with total := tot }
    | none => t
  let t2 := match advance? with
    | some adv => { t1 with completed := t1.completed + adv }
    | none => t1
  let t3 := match completed? with
    | some comp => { t2 with completed := comp }
    | none => t2
  let t4 := match visible? with
    | some _ => { t3 with visible := true }
    | none => t3
  let t5 := { t4 with fields := dictUpdate t4.fields flds }
  let update_completed := t5.completed - completed_start
  let old_sample_time := now - speed_estimate_period
  { t5 with samples :=
      evictOld old_sample_time t5.samples ++ [⟨now, update_completed⟩] }

/-- The registry (`Progress` engine) state: the insertion-ordered task
table, the monotonically increasing handle counter, the refresh counter
and the configured speed-estimate window width. -/
structure ProgressState where
  tasks : List (ℕ × Task)
  task_index : ℕ
  refresh_count : ℕ
  speed_estimate_period : ℚ := 30
deriving Repr, DecidableEq

/-- `self._tasks[task_id]` as a query: the task stored under a handle. -/
def findTask (s : ProgressState) (task_id : ℕ) : Option Task :=
  (s.tasks.find? (fun p => p.1 = task_id)).map (fun p => p.2)

/-- Replace the task stored under an existing handle, preserving order. -/
def setTask (s : ProgressState) (task_id : ℕ) (t : Task) : ProgressState :=
  { s with tasks := s.tasks.map (fun p => if p.1 = task_id then (task_id, t) else p) }

/-- `Progress.tasks_ids`: the list of task IDs in insertion order. -/
def ProgressState.tasks_ids (s : ProgressState) : List ℕ :=
  s.tasks.map (fun p => p.1)

/-- `Progress.finished`: `True` when the task table is empty, otherwise
whether every task is finished. -/
def ProgressState.finished (s : ProgressState) : Bool :=
  s.tasks.all (fun p => p.2.finished)

/-- `Progress.start`: set `start_time = now`; `KeyError` (modelled as
`Except.error ()`) when the handle is unknown. -/
def ProgressState.start (s : ProgressState) (task_id : ℕ) (now : ℚ) :
    Except Unit ProgressState :=
  match findTask s task_id with
  | none => .error ()
  | some t => .ok (setTask s task_id { t with start_time := some now })

/-- `Progress.stop`: backfill `start_time = now` when the task was never
started, then set `stop_time = now`; `KeyError` when unknown. -/
def ProgressState.stop (s : ProgressState) (task_id : ℕ) (now : ℚ) :
    Except Unit ProgressState :=
  match findTask s task_id with
  | none => .error ()
  | some t =>
    let t1 := if t.start_time = none then { t with start_time := some now } else t
    .ok (setTask s task_id { t1 with stop_time := some now })

/-- `Progress.update` on the registry: look the task up (`KeyError` when
unknown) and apply `Task.update` with the registry's window width. -/
def ProgressState.update (s : ProgressState) (task_id : ℕ) (now : ℚ)
    (total? completed? advance? : Option ℚ) (visible? : Option Bool)
    (flds : List (String × String)) : Except Unit ProgressState :=
  match findTask s task_id with
  | none => .error ()
  | some t =>
    .ok (setTask s task_id
      (t.update now total? completed? advance? visible? flds s.speed_estimate_period))

/-- `Progress.remove_task`: `del self._tasks[task_id]` — `KeyError` when
the handle is unknown, otherwise delete the entry preserving the order of
the rest. -/
def ProgressState.remove_task (s : ProgressState) (task_id : ℕ) :
    Except Unit ProgressState :=
  match findTask s task_id with
  | none => .error ()
  | some _ => .ok { s with tasks := s.tasks.filter (fun p => ¬ p.1 = task_id) }

/-- `Progress.add_task`: create a `Task` under the next handle, optionally
start it, refresh, return the handle, and post-increment the counter. The
inner `start` call always finds the task just inserted, so its error
branch is unreachable. -/
def ProgressState.add_task (s : ProgressState) (name : String)
    (start : Bool) (total completed : ℚ) (visible : Bool)
    (flds : List (String × String)) (now : ℚ) : ℕ × ProgressState :=
  let id := s.task_index
  let t : Task := { id := id, name := name, total := total,
                    completed := completed, visible := visible, fields := flds }
  let s1 := { s with tasks := dictSet s.tasks id t }
  let s2 := if start then
      match s1.start id now with
      | .ok s' => s'
      | .error _ => s1
    else s1
  let s3 := { s2 with refresh_count := s2.refresh_count + 1 }
  (id, { s3 with task_index := s3.task_index + 1 })

/-- Modelled from the spec (§4.1), for comparison with `Task.speed`:
`None` if the sample sequence is empty; otherwise `0` if the task was
never started; otherwise `None` if the first-to-last span is zero, else
the sum of deltas of all samples except the first divided by the span. -/
def Task.speed_spec (t : Task) : Option ℚ :=
  match t.samples with
  | [] => none
  | first :: rest =>
    if t.start_time = none then some 0
    else
      let span := (rest.getLastD first).timestamp - first.timestamp
      if span = 0 then none
      else some ((rest.map ProgressSample.completed).sum / span)

/-- The spec's two leading `speed` cases with their order swapped, as the
counterexample to C2 forces: `0` first when never started, then `None` on
an empty sample sequence, then the span rule unchanged. -/
def Task.speed_amended (t : Task) : Option ℚ :=
  if t.start_time = none then some 0
  else
    match t.samples with
    | [] => none
    | first :: rest =>
      let span := (rest.getLastD first).timestamp - first.timestamp
      if span = 0 then none
      else some ((rest.map ProgressSample.completed).sum / span)

/-- Modelled from the spec (§4.1), for comparison with `Task.percentage`:
`0.0` if `total` is zero/falsy, otherwise `clamp(completed/total*100, 0, 100)`. -/
def Task.percentage_spec (t : Task) : ℚ :=
  if t.total = 0 then 0
  else min 100 (max 0 (t.completed / t.total * 100))

/-- Time span covered by a sample sequence: last timestamp minus first
timestamp, `0` for the empty sequence. -/
def sampleSpan : List ProgressSample → ℚ
  | [] => 0
  | first :: rest => (rest.getLastD first).timestamp - first.timestamp

/-- Characterization of `Task.update`: the `total` override is applied,
an absolute `completed` wins over `advance`, `fields` are merged, the
`visible` flag is forced to `true` whenever a value was passed, and one
sample holding the net completed delta is appended after eviction. -/
lemma Task.update_eq (t : Task) (now : ℚ) (total? completed? advance? : Option ℚ)
    (visible? : Option Bool) (flds : List (String × String)) (period : ℚ) :
    t.update now total? completed? advance? visible? flds period =
      { t with
        total := total?.getD t.total,
        completed := (match completed? with
          | some c => c
          | none => t.completed + advance?.getD 0),
        visible := (match visible? with
          | some _ => true
          | none => t.visible),
        fields := dictUpdate t.fields flds,
        samples := evictOld (now - period) t.samples ++
          [⟨now, (match completed? with
            | some c => c
            | none => t.completed + advance?.getD 0) - t.completed⟩] } := by
  cases total? <;> cases advance? <;> cases completed? <;> cases visible? <;>
    simp [Task.update, Option.getD]

/-- Every sample surviving front-only eviction from a sequence with
nondecreasing timestamps is at or after the cutoff. -/
lemma evictOld_le (c : ℚ) (l : List ProgressSample)
    (hs : l.Pairwise (fun a b => a.timestamp ≤ b.timestamp)) :
    ∀ x ∈ evictOld c l, c ≤ x.timestamp := by
  induction l with
  | nil => simp [evictOld]
  | cons s rest ih =>
    rw [List.pairwise_cons] at hs
    rw [evictOld]
    split
    · exact ih hs.2
    · intro x hx
      rcases List.mem_cons.mp hx with h | h
      · subst h; exact le_of_not_lt (by assumption)
      · exact le_trans (le_of_not_lt (by assumption)) (hs.1 x h)

/-- Searching for a key past entries whose keys are all smaller skips
those entries. -/
lemma find?_key_append (l rest : List (ℕ × Task)) (idx : ℕ)
    (h : ∀ p ∈ l, p.1 < idx) :
    (l ++ rest).find? (fun p => p.1 = idx) = rest.find? (fun p => p.1 = idx) := by
  induction l with
  | nil => rfl
  | cons a l ih =>
    have ha : ¬ a.1 = idx := Nat.ne_of_lt (h a (List.mem_cons_self a l))
    simp only [List.cons_append, List.find?_cons]
    rw [decide_eq_false ha]
    exact ih (fun p hp => h p (List.mem_cons_of_mem a hp))

/-- Replacing the entry under a key leaves a list untouched when every
key in it is smaller. -/
lemma map_set_key_eq (l : List (ℕ × Task)) (idx : ℕ) (t' : Task)
    (h : ∀ p ∈ l, p.1 < idx) :
    l.map (fun p => if p.1 = idx then (idx, t') else p) = l := by
  induction l with
  | nil => rfl
  | cons a l ih =>
    have ha : ¬ a.1 = idx := Nat.ne_of_lt (h a (List.mem_cons_self a l))
    simp only [List.map_cons, if_neg ha]
    rw [ih (fun p hp => h p (List.mem_cons_of_mem a hp))]

/-- Assigning a fresh key to an insertion-ordered dictionary appends the
new entry at the end. -/
lemma dictSet_fresh (l : List (ℕ × Task)) (idx : ℕ) (t : Task)
    (h : ∀ p ∈ l, p.1 < idx) :
    dictSet l idx t = l ++ [(idx, t)] := by
  have hany : l.any (fun p => p.1 = idx) = false := by
    rw [List.any_eq_false]
    intro p hp
    simp [Nat.ne_of_lt (h p hp)]
  rw [dictSet, hany]
  simp

/-- `add_task` on a registry whose keys are all below the handle counter
appends the new task (started when requested) at the end of the table. -/
lemma add_task_tasks (s : ProgressState) (nm : String) (st : Bool)
    (total completed : ℚ) (visible : Bool) (flds : List (String × String)) (now : ℚ)
    (hfresh : ∀ p ∈ s.tasks, p.1 < s.task_index) :
    ((s.add_task nm st total completed visible flds now).2).tasks =
      s.tasks ++ [(s.task_index,
        let t0 : Task := { id := s.task_index, name := nm, total := total,
                           completed := completed, visible := visible, fields := flds }
        if st then { t0 with start_time := some now } else t0)] := by
  cases st with
  | false => simp [ProgressState.add_task, dictSet_fresh s.tasks s.task_index _ hfresh]
  | true =>
    simp only [ProgressState.add_task, dictSet_fresh s.tasks s.task_index _ hfresh,
      if_true]
    rw [ProgressState.start, findTask, find?_key_append _ _ _ hfresh,
      List.find?_cons_of_pos _ (by simp)]
    simp only [Option.map_some, setTask, List.map_append,
      map_set_key_eq _ _ _ hfresh]
    simp

/-- Deleting a key that is above every key of a list keeps the whole list. -/
lemma filter_ne_key (l : List (ℕ × Task)) (idx : ℕ) (h : ∀ p ∈ l, p.1 < idx) :
    l.filter (fun p => ¬ p.1 = idx) = l := by
  rw [List.filter_eq_self]
  intro p hp
  simp [Nat.ne_of_lt (h p hp)]

/-- Claim C1: the claim says `time_remaining` is `None` when `speed` is
`None` or `speed == 0` and otherwise equals `round(remaining / speed)`,
never raising for a non-finished task. The code instead computes
`round(remaining / int(speed))` with no zero guard: a never-started
non-finished task (speed `0.0`) and a started task with fractional speed
`1/2` both make `time_remaining` raise `ZeroDivisionError`. -/
theorem c1_time_remaining_raises :
    Task.time_remaining ⟨0, "t", 1, 0, true, [], none, none, []⟩ = .error () ∧
    Task.finished ⟨0, "t", 1, 0, true, [], none, none, []⟩ = false ∧
    Task.speed ⟨0, "t", 1, 0, true, [], none, none, []⟩ = some 0 ∧
    Task.speed ⟨0, "t", 10, 1, true, [], some 0, none,
      [⟨0, 0⟩, ⟨2, 1⟩]⟩ = some (1/2) ∧
    Task.time_remaining ⟨0, "t", 10, 1, true, [], some 0, none,
      [⟨0, 0⟩, ⟨2, 1⟩]⟩ = .error () := by
  have hs : Task.speed ⟨0, "t", 10, 1, true, [], some 0, none,
      [⟨0, 0⟩, ⟨2, 1⟩]⟩ = some (1/2) := by
    norm_num [Task.speed, List.getLastD]
  have hf : Task.finished ⟨0, "t", 10, 1, true, [], some 0, none,
      [⟨0, 0⟩, ⟨2, 1⟩]⟩ = false := by decide
  refine ⟨rfl, by decide, by decide, hs, ?_⟩
  rw [Task.time_remaining, hf, hs]
  norm_num [pyInt]

/-- Counterexample to claim C2: on a never-started task with no samples
the code returns speed `0.0` (the `start_time` check runs first) while
the spec's reference definition returns `None` (its empty-samples check
runs first). -/
theorem c2_speed_counterexample :
    Task.speed ⟨0, "t", 1, 0, true, [], none, none, []⟩ ≠
      Task.speed_spec ⟨0, "t", 1, 0, true, [], none, none, []⟩ ∧
    Task.speed ⟨0, "t", 1, 0, true, [], none, none, []⟩ = some 0 ∧
    Task.speed_spec ⟨0, "t", 1, 0, true, [], none, none, []⟩ = none := by
  refine ⟨by decide, by decide, by decide⟩

/-- Claim C2 amended: `speed` is `0` whenever the task was never started
(checked first); otherwise `None` on an empty sample sequence; otherwise
`None` on a zero span, else the sum of deltas of all samples except the
first divided by the span. -/
theorem c2_speed_amended (t : Task) : t.speed = t.speed_amended := by
  cases h : t.start_time <;> cases hs : t.samples <;>
    simp [Task.speed, Task.speed_amended, h, hs]

/-- Counterexample to claim C4: a never-started task with zero samples
has speed `0.0`, not `None`, so `speed = None` is not equivalent to the
sample sequence being empty. -/
theorem c4_speed_none_counterexample :
    ¬ (Task.speed ⟨0, "t", 1, 0, true, [], none, none, []⟩ = none ↔
       (⟨0, "t", 1, 0, true, [], none, none, []⟩ : Task).samples = []) := by
  decide

/-- Claim C4 amended: `speed` is `None` exactly when the task was started
and its sample sequence is empty or spans zero time. -/
theorem c4_speed_none_amended (t : Task) :
    t.speed = none ↔ t.start_time ≠ none ∧
      (t.samples = [] ∨ sampleSpan t.samples = 0) := by
  cases h : t.start_time <;> cases hs : t.samples <;>
    simp [Task.speed, sampleSpan, h, hs]

/-- Claim C3: the claim says `update(id, visible=v)` sets the task's
visible flag to `v`. The code executes `task.visible = True` whenever the
argument is not `None`, so updating an invisible task with
`visible=False` turns its flag to `True`. -/
theorem c3_update_visible_bug :
    (findTask ⟨[(0, ⟨0, "t", 100, 0, false, [], none, none, []⟩)], 1, 0, 30⟩ 0).map
        Task.visible = some false ∧
    (ProgressState.update ⟨[(0, ⟨0, "t", 100, 0, false, [], none, none, []⟩)], 1, 0, 30⟩
        0 5 none none none (some false) []).toOption.bind
      (fun s => (findTask s 0).map Task.visible) = some true := by
  refine ⟨rfl, rfl⟩

/-- Claim C5: immediately after an update at time `now` on a task whose
sample timestamps are nondecreasing (with a nonnegative window width), no
retained sample has `timestamp < now - speed_estimate_period`. -/
theorem c5_window_eviction (t : Task) (now period : ℚ)
    (total? completed? advance? : Option ℚ) (visible? : Option Bool)
    (flds : List (String × String))
    (hsorted : t.samples.Pairwise (fun a b => a.timestamp ≤ b.timestamp))
    (hperiod : 0 ≤ period) :
    ∀ smp ∈ (t.update now total? completed? advance? visible? flds period).samples,
      ¬ smp.timestamp < now - period := by
  rw [Task.update_eq]
  intro smp hmem
  simp only [List.mem_append, List.mem_singleton] at hmem
  rcases hmem with h | h
  · exact not_lt.mpr (evictOld_le _ _ hsorted smp h)
  · subst h
    simp only [not_lt]
    linarith

/-- Concrete instance of the window-eviction invariant: an update at
`now = 40` with a 30-second window on samples at times 0 and 5 leaves no
retained sample before time 10. -/
theorem c5_window_eviction_witness :
    (([⟨0, 1⟩, ⟨5, 2⟩] : List ProgressSample).Pairwise
      (fun a b => a.timestamp ≤ b.timestamp)) ∧ (0 : ℚ) ≤ 30 ∧
    ∀ smp ∈ (Task.update ⟨0, "t", 10, 3, true, [], none, none, [⟨0, 1⟩, ⟨5, 2⟩]⟩
        40 none none (some 1) none [] 30).samples,
      ¬ smp.timestamp < 40 - 30 :=
  ⟨by decide, by norm_num,
    c5_window_eviction ⟨0, "t", 10, 3, true, [], none, none, [⟨0, 1⟩, ⟨5, 2⟩]⟩
      40 30 none none (some 1) none [] (by decide) (by norm_num)⟩

/-- Claim C6: `percentage` always lies in `[0, 100]`, and it equals the
spec's formula — `0.0` on a zero/falsy `total`, otherwise
`clamp(completed/total*100, 0, 100)` — for all rational `completed` and
`total`, negatives included. -/
theorem c6_percentage_bounds (t : Task) :
    (0 ≤ t.percentage ∧ t.percentage ≤ 100) ∧ t.percentage = t.percentage_spec := by
  unfold Task.percentage Task.percentage_spec
  split
  · norm_num
  · exact ⟨⟨le_min (by norm_num) (le_max_left _ _), min_le_left _ _⟩, rfl⟩

/-- Claim C7: an update applies the `total` override, then `advance`
additively, then `completed` as an absolute override taking precedence
over `advance`, merges `fields`, and appends exactly one sample
`(now, completed_after - completed_before)`. -/
theorem c7_update_order (t : Task) (now : ℚ) (total? completed? advance? : Option ℚ)
    (visible? : Option Bool) (flds : List (String × String)) (period : ℚ) :
    ((t.update now total? completed? advance? visible? flds period).total
        = total?.getD t.total) ∧
    ((t.update now total? completed? advance? visible? flds period).completed
        = match completed? with
          | some c => c
          | none => t.completed + advance?.getD 0) ∧
    ((t.update now total? completed? advance? visible? flds period).fields
        = dictUpdate t.fields flds) ∧
    ((t.update now total? completed? advance? visible? flds period).samples
        = evictOld (now - period) t.samples ++
            [⟨now, (t.update now total? completed? advance? visible? flds period).completed
                     - t.completed⟩]) := by
  rw [Task.update_eq]
  refine ⟨rfl, rfl, rfl, rfl⟩

/-- Claim C8: `start`, `stop`, `update` and `remove_task` addressed at a
handle absent from the registry all fail with the task-not-found error;
being pure state transformers, the error result carries no successor
state, so the registry is unchanged. -/
theorem c8_unknown_task_errors (s : ProgressState) (task_id : ℕ) (now : ℚ)
    (total? completed? advance? : Option ℚ) (visible? : Option Bool)
    (flds : List (String × String))
    (h : findTask s task_id = none) :
    s.start task_id now = .error () ∧
    s.stop task_id now = .error () ∧
    s.update task_id now total? completed? advance? visible? flds = .error () ∧
    s.remove_task task_id = .error () := by
  refine ⟨?_, ?_, ?_, ?_⟩ <;>
    simp [ProgressState.start, ProgressState.stop, ProgressState.update,
      ProgressState.remove_task, h]

/-- Concrete instance at the empty registry and handle 0: every
handle-addressed operation errors. -/
theorem c8_unknown_task_errors_witness :
    findTask ⟨[], 0, 0, 30⟩ 0 = none ∧
    (ProgressState.start ⟨[], 0, 0, 30⟩ 0 0 = .error () ∧
     ProgressState.stop ⟨[], 0, 0, 30⟩ 0 0 = .error () ∧
     ProgressState.update ⟨[], 0, 0, 30⟩ 0 0 none none none none [] = .error () ∧
     ProgressState.remove_task ⟨[], 0, 0, 30⟩ 0 = .error ()) :=
  ⟨rfl, c8_unknown_task_errors ⟨[], 0, 0, 30⟩ 0 0 none none none none [] rfl⟩

/-- Claim C9: on any registry whose keys are all below the handle
counter, `add_task` immediately followed by `remove_task` on the new
handle succeeds and restores `tasks_ids` to its prior value and order. -/
theorem c9_add_remove_round_trip (s : ProgressState) (nm : String) (st : Bool)
    (total completed : ℚ) (visible : Bool) (flds : List (String × String)) (now : ℚ)
    (hfresh : ∀ p ∈ s.tasks, p.1 < s.task_index) :
    ∃ s', ((s.add_task nm st total completed visible flds now).2).remove_task
            (s.add_task nm st total completed visible flds now).1 = .ok s' ∧
          s'.tasks_ids = s.tasks_ids := by
  have htasks := add_task_tasks s nm st total completed visible flds now hfresh
  have h1 : (s.add_task nm st total completed visible flds now).1 = s.task_index := rfl
  unfold ProgressState.remove_task
  rw [h1, findTask, htasks, find?_key_append _ _ _ hfresh,
    List.find?_cons_of_pos _ (by simp)]
  simp only [Option.map_some]
  refine ⟨_, rfl, ?_⟩
  simp only [ProgressState.tasks_ids, htasks, List.filter_append]
  rw [filter_ne_key _ _ hfresh]
  simp

/-- Concrete instance of the add/remove round trip on a one-task registry. -/
theorem c9_add_remove_round_trip_witness :
    (∀ p ∈ (⟨[(0, ⟨0, "a", 1, 0, true, [], none, none, []⟩)], 1, 0, 30⟩ :
        ProgressState).tasks,
      p.1 < (⟨[(0, ⟨0, "a", 1, 0, true, [], none, none, []⟩)], 1, 0, 30⟩ :
        ProgressState).task_index) ∧
    ∃ s', (((⟨[(0, ⟨0, "a", 1, 0, true, [], none, none, []⟩)], 1, 0, 30⟩ :
              ProgressState).add_task "b" true 100 0 true [] 7).2).remove_task
            ((⟨[(0, ⟨0, "a", 1, 0, true, [], none, none, []⟩)], 1, 0, 30⟩ :
              ProgressState).add_task "b" true 100 0 true [] 7).1 = .ok s' ∧
          s'.tasks_ids = (⟨[(0, ⟨0, "a", 1, 0, true, [], none, none, []⟩)], 1, 0, 30⟩ :
            ProgressState).tasks_ids :=
  ⟨by decide, c9_add_remove_round_trip _ "b" true 100 0 true [] 7 (by decide)⟩

/-- Claim C10: a task created with `total = 0` and `completed = 0` is
finished immediately (`0 >= 0`), its percentage is `0.0`, and the
registry-wide `finished` query is unchanged by adding it (the new task
counts as complete). -/
theorem c10_zero_total_finished (s : ProgressState) (nm : String) (visible : Bool)
    (flds : List (String × String)) (now : ℚ)
    (hfresh : ∀ p ∈ s.tasks, p.1 < s.task_index) :
    ∃ t, findTask (s.add_task nm true 0 0 visible flds now).2
           (s.add_task nm true 0 0 visible flds now).1 = some t ∧
         t.finished = true ∧ t.percentage = 0 ∧
         ((s.add_task nm true 0 0 visible flds now).2).finished = s.finished := by
  have htasks := add_task_tasks s nm true 0 0 visible flds now hfresh
  have h1 : (s.add_task nm true 0 0 visible flds now).1 = s.task_index := rfl
  refine ⟨⟨s.task_index, nm, 0, 0, visible, flds, some now, none, []⟩, ?_, rfl, rfl, ?_⟩
  · rw [h1, findTask, htasks, find?_key_append _ _ _ hfresh,
      List.find?_cons_of_pos _ (by simp)]
    rfl
  · simp only [ProgressState.finished, htasks, List.all_append, List.all_cons,
      List.all_nil, Bool.and_true]
    have hfin : Task.finished ⟨s.task_index, nm, 0, 0, visible, flds,
        some now, none, []⟩ = true := rfl
    simp [hfin]

/-- Concrete instance: adding a zero-total task to the empty registry
yields a finished task with percentage 0 and a finished registry. -/
theorem c10_zero_total_finished_witness :
    (∀ p ∈ (⟨[], 0, 0, 30⟩ : ProgressState).tasks,
      p.1 < (⟨[], 0, 0, 30⟩ : ProgressState).task_index) ∧
    ∃ t, findTask ((⟨[], 0, 0, 30⟩ : ProgressState).add_task "z" true 0 0 true [] 3).2
           ((⟨[], 0, 0, 30⟩ : ProgressState).add_task "z" true 0 0 true [] 3).1 = some t ∧
         t.finished = true ∧ t.percentage = 0 ∧
         (((⟨[], 0, 0, 30⟩ : ProgressState).add_task "z" true 0 0 true [] 3).2).finished =
           (⟨[], 0, 0, 30⟩ : ProgressState).finished :=
  ⟨by simp, c10_zero_total_finished ⟨[], 0, 0, 30⟩ "z" true [] 3 (by simp)⟩

end Rich
